import Mathlib

/-!
# Verification of the watertight ray/triangle intersection library

A shallow embedding of `src/lib.rs` (an implementation of Woop, Benthin and
Wald, "Watertight ray/triangle intersection", JCGT 2013) over exact rational
arithmetic, together with proofs of the specification's claims about it.

The library is generic over a scalar type `S : BaseFloat`; the claims about
the algorithm's algebra are stated "under exact (rounding-free) arithmetic",
so the embedding instantiates the scalar at `ℚ`.
-/

namespace Watertri

/-- The external 3-component vector type (`cgmath::Vector3<S>`), instantiated
at the exact scalar `ℚ`. -/
structure Vec3 where
  x : ℚ
  y : ℚ
  z : ℚ
deriving Repr, DecidableEq

/-- Component indexing `v[i]` of `cgmath::Vector3` (index 0 is `x`, 1 is `y`,
2 is `z`; the library only ever uses indices in `{0,1,2}`). -/
def Vec3.get (v : Vec3) (i : ℕ) : ℚ :=
  if i = 0 then v.x else if i = 1 then v.y else v.z

/-- Component-wise subtraction of `cgmath::Vector3`. -/
def Vec3.sub (a b : Vec3) : Vec3 :=
  ⟨a.x - b.x, a.y - b.y, a.z - b.z⟩

/-- Component-wise addition of `cgmath::Vector3` (used to state translation
properties). -/
def Vec3.add (a b : Vec3) : Vec3 :=
  ⟨a.x + b.x, a.y + b.y, a.z + b.z⟩

/-- Scalar multiplication of `cgmath::Vector3` (used to state geometric
properties about the returned `t, u, v, w`). -/
def Vec3.smul (s : ℚ) (a : Vec3) : Vec3 :=
  ⟨s * a.x, s * a.y, s * a.z⟩

/-- `max_dim` from `src/lib.rs`: the index of the component of `v` with the
greatest absolute value, with the source's exact tie-breaking. -/
def max_dim (v : Vec3) : ℕ :=
  let x := |v.x|
  let y := |v.y|
  let z := |v.z|
  if x > y then
    -- y isn't the maximum, so it's either x or z
    if x > z then 0 else 2
  else if y > z then
    -- x isn't the maximum, so it's either y or z
    1
  else
    2

/-- `RayData<S>` from `src/lib.rs`: precomputed data depending only on the
ray. -/
structure RayData where
  kx : ℕ
  ky : ℕ
  kz : ℕ
  sx : ℚ
  sy : ℚ
  sz : ℚ
  org : Vec3
deriving Repr, DecidableEq

namespace RayData

/-- `RayData::new` from `src/lib.rs`.  The paper swaps `kx` and `ky` if
`dir[kz]` is negative to preserve winding order; the source deliberately
omits that swap since it performs no backface culling. -/
def new (org dir : Vec3) : RayData :=
  let kz := max_dim dir
  let kx := (kz + 1) % 3
  let ky := (kz + 2) % 3
  { kx := kx
    ky := ky
    kz := kz
    sx := dir.get kx / dir.get kz
    sy := dir.get ky / dir.get kz
    sz := 1 / dir.get kz
    org := org }

end RayData

/-- `Intersection<S>` from `src/lib.rs`: parametric distance `t` and
barycentric coordinates `u, v, w` of a hit. -/
structure Intersection where
  t : ℚ
  u : ℚ
  v : ℚ
  w : ℚ
deriving Repr, DecidableEq

namespace RayData

/-- The edge-function computation of `RayData::intersect` (`src/lib.rs`
lines 58–82): translate the vertices by the stored origin, shear into 2D ray
space, compute the signed edge functions `u, v, w`, and recompute all three
through named intermediates when any is exactly zero. -/
def uvw (r : RayData) (A B C : Vec3) : ℚ × ℚ × ℚ :=
  let a := A.sub r.org
  let b := B.sub r.org
  let c := C.sub r.org
  let ax := a.get r.kx - r.sx * a.get r.kz
  let ay := a.get r.ky - r.sy * a.get r.kz
  let bx := b.get r.kx - r.sx * b.get r.kz
  let bY := b.get r.ky - r.sy * b.get r.kz
  let cx := c.get r.kx - r.sx * c.get r.kz
  let cy := c.get r.ky - r.sy * c.get r.kz
  let u := cx * bY - cy * bx
  let v := ax * cy - ay * cx
  let w := bx * ay - bY * ax
  if u = 0 ∨ v = 0 ∨ w = 0 then
    let cxby := cx * bY
    let cybx := cy * bx
    let axcy := ax * cy
    let aycx := ay * cx
    let bxay := bx * ay
    let byax := bY * ax
    (cxby - cybx, axcy - aycx, bxay - byax)
  else
    (u, v, w)

/-- `RayData::intersect` from `src/lib.rs`: the sign test, the determinant
test, and the final depth computation and normalization, on top of the edge
functions of `uvw`. -/
def intersect (r : RayData) (A B C : Vec3) : Option Intersection :=
  let a := A.sub r.org
  let b := B.sub r.org
  let c := C.sub r.org
  let (u, v, w) := r.uvw A B C
  if (u < 0 ∨ v < 0 ∨ w < 0) ∧ (u > 0 ∨ v > 0 ∨ w > 0) then
    none
  else
    let det := u + v + w
    if det = 0 then
      none
    else
      let az := r.sz * a.get r.kz
      let bz := r.sz * b.get r.kz
      let cz := r.sz * c.get r.kz
      let t := u * az + v * bz + w * cz
      let rcp_det := 1 / det
      some { t := t * rcp_det, u := u * rcp_det, v := v * rcp_det, w := w * rcp_det }

/-- The sheared `x` coordinate of a vertex in 2D ray space:
`Px = P'[kx] - sx * P'[kz]` for the translated vertex `P' = P - org`. -/
def shearX (r : RayData) (P : Vec3) : ℚ :=
  (P.sub r.org).get r.kx - r.sx * (P.sub r.org).get r.kz

/-- The sheared `y` coordinate of a vertex in 2D ray space:
`Py = P'[ky] - sy * P'[kz]` for the translated vertex `P' = P - org`. -/
def shearY (r : RayData) (P : Vec3) : ℚ :=
  (P.sub r.org).get r.ky - r.sy * (P.sub r.org).get r.kz

/-- The scaled depth of a vertex: `Pz = sz * P'[kz]`. -/
def depthZ (r : RayData) (P : Vec3) : ℚ :=
  r.sz * (P.sub r.org).get r.kz

/-- The signed edge function `U = Cx*By - Cy*Bx`. -/
def edgeU (r : RayData) (_A B C : Vec3) : ℚ :=
  shearX r C * shearY r B - shearY r C * shearX r B

/-- The signed edge function `V = Ax*Cy - Ay*Cx`. -/
def edgeV (r : RayData) (A _B C : Vec3) : ℚ :=
  shearX r A * shearY r C - shearY r A * shearX r C

/-- The signed edge function `W = Bx*Ay - By*Ax`. -/
def edgeW (r : RayData) (A B _C : Vec3) : ℚ :=
  shearX r B * shearY r A - shearY r B * shearX r A

/-- The determinant `det = U + V + W`. -/
def detR (r : RayData) (A B C : Vec3) : ℚ :=
  edgeU r A B C + edgeV r A B C + edgeW r A B C

/-- The unnormalized depth `T = U*Az + V*Bz + W*Cz`. -/
def hitT (r : RayData) (A B C : Vec3) : ℚ :=
  edgeU r A B C * depthZ r A + edgeV r A B C * depthZ r B + edgeW r A B C * depthZ r C

/-- Over exact arithmetic the zero-triggered fallback recomputation of
`intersect` is a no-op: `uvw` always returns the plain edge-function
formulas. -/
theorem uvw_eq (r : RayData) (A B C : Vec3) :
    r.uvw A B C = (edgeU r A B C, edgeV r A B C, edgeW r A B C) := by
  unfold uvw edgeU edgeV edgeW shearX shearY
  dsimp only
  split <;> rfl

/-- Characterization of `intersect` in terms of the named edge functions,
determinant and depth. -/
theorem intersect_eq (r : RayData) (A B C : Vec3) :
    r.intersect A B C =
      if (edgeU r A B C < 0 ∨ edgeV r A B C < 0 ∨ edgeW r A B C < 0)
          ∧ (edgeU r A B C > 0 ∨ edgeV r A B C > 0 ∨ edgeW r A B C > 0) then
        none
      else if detR r A B C = 0 then
        none
      else
        some { t := hitT r A B C * (1 / detR r A B C)
               u := edgeU r A B C * (1 / detR r A B C)
               v := edgeV r A B C * (1 / detR r A B C)
               w := edgeW r A B C * (1 / detR r A B C) } := by
  unfold intersect
  rw [uvw_eq]
  rfl

end RayData

/-- Unfolding equation for `max_dim`. -/
theorem max_dim_eq (v : Vec3) :
    max_dim v =
      if |v.x| > |v.y| then (if |v.x| > |v.z| then 0 else 2)
      else if |v.y| > |v.z| then 1 else 2 := rfl

/-- `max_dim` always returns `0`, `1` or `2`. -/
theorem max_dim_cases (v : Vec3) : max_dim v = 0 ∨ max_dim v = 1 ∨ max_dim v = 2 := by
  rw [max_dim_eq]
  split
  · split <;> simp
  · split <;> simp

/-- The component selected by `max_dim` has the greatest absolute value:
every component (at any index, since indexing clamps to `z`) is bounded by
it. -/
theorem abs_get_le_max_dim (v : Vec3) (i : ℕ) :
    |v.get i| ≤ |v.get (max_dim v)| := by
  have hi : v.get i = v.x ∨ v.get i = v.y ∨ v.get i = v.z := by
    unfold Vec3.get
    split
    · exact Or.inl rfl
    split
    · exact Or.inr (Or.inl rfl)
    · exact Or.inr (Or.inr rfl)
  rw [max_dim_eq]
  rcases hi with h | h | h <;> rw [h] <;>
    by_cases h1 : |v.x| > |v.y| <;> by_cases h2 : |v.x| > |v.z| <;>
    by_cases h3 : |v.y| > |v.z| <;>
    simp only [h1, h2, h3, if_true, if_false, Vec3.get] <;> norm_num <;> linarith

/-- For a non-zero vector, the dominant component selected by `max_dim` is
non-zero. -/
theorem get_max_dim_ne_zero (v : Vec3) (hv : v ≠ ⟨0, 0, 0⟩) :
    v.get (max_dim v) ≠ 0 := by
  intro h
  apply hv
  have hx := abs_get_le_max_dim v 0
  have hy := abs_get_le_max_dim v 1
  have hz := abs_get_le_max_dim v 2
  rw [h] at hx hy hz
  simp only [Vec3.get, if_true, if_false, abs_zero] at hx hy hz
  norm_num at hx hy hz
  cases v
  simp_all [abs_nonpos_iff]

/-- C3: `max_dim v` returns an index in `{0,1,2}` of a component of `v` with
greatest absolute value, resolving ties with strict `>` comparisons in the
exact order of the source: if `|x| > |y|` then `0` if `|x| > |z|` else `2`,
otherwise `1` if `|y| > |z|` else `2`; and the five concrete evaluations of
the spec hold: `max_dim (1,0,0) = 0`, `max_dim (0,1,0) = 1`,
`max_dim (0,0,1) = 2`, `max_dim (2,2,1) = 1`, `max_dim (3,1,1) = 0`. -/
theorem claim_C3_max_dim :
    (∀ v : Vec3,
      max_dim v < 3 ∧
      (∀ i : ℕ, |v.get i| ≤ |v.get (max_dim v)|) ∧
      max_dim v =
        (if |v.x| > |v.y| then (if |v.x| > |v.z| then 0 else 2)
         else if |v.y| > |v.z| then 1 else 2)) ∧
    max_dim ⟨1, 0, 0⟩ = 0 ∧ max_dim ⟨0, 1, 0⟩ = 1 ∧ max_dim ⟨0, 0, 1⟩ = 2 ∧
    max_dim ⟨2, 2, 1⟩ = 1 ∧ max_dim ⟨3, 1, 1⟩ = 0 := by
  refine ⟨fun v => ⟨?_, abs_get_le_max_dim v, max_dim_eq v⟩, ?_, ?_, ?_, ?_, ?_⟩
  · rcases max_dim_cases v with h | h | h <;> omega
  all_goals norm_num [max_dim_eq]

/-- C4: `RayData.new org dir` stores exactly `kz = max_dim dir`,
`kx = (kz+1) % 3`, `ky = (kz+2) % 3`, `sx = dir[kx]/dir[kz]`,
`sy = dir[ky]/dir[kz]`, `sz = 1/dir[kz]`, and the origin by value; the
`kx`/`ky` fields are these values unconditionally, so no swap is performed
when `dir[kz]` is negative. -/
theorem claim_C4_new (org dir : Vec3) :
    RayData.new org dir =
      { kx := (max_dim dir + 1) % 3
        ky := (max_dim dir + 2) % 3
        kz := max_dim dir
        sx := dir.get ((max_dim dir + 1) % 3) / dir.get (max_dim dir)
        sy := dir.get ((max_dim dir + 2) % 3) / dir.get (max_dim dir)
        sz := 1 / dir.get (max_dim dir)
        org := org } := rfl

/-- C8: for every direction vector (and any origin), the frame produced by
`RayData.new` has `kx`, `ky`, `kz` pairwise distinct and equal as a set to
`{0,1,2}`; each index in particular lies in `{0,1,2}`, so every vector
indexing inside `intersect` uses an index in `{0,1,2}`. -/
theorem claim_C8_perm (org dir : Vec3) :
    (RayData.new org dir).kx ≠ (RayData.new org dir).ky ∧
    (RayData.new org dir).ky ≠ (RayData.new org dir).kz ∧
    (RayData.new org dir).kx ≠ (RayData.new org dir).kz ∧
    ({(RayData.new org dir).kx, (RayData.new org dir).ky,
      (RayData.new org dir).kz} : Finset ℕ) = {0, 1, 2} := by
  rcases max_dim_cases dir with h | h | h <;>
    simp [RayData.new, h] <;> decide

/-- C2: `intersect` returns no intersection whenever the edge-function signs
are mixed, i.e. when `(U<0 ∨ V<0 ∨ W<0) ∧ (U>0 ∨ V>0 ∨ W>0)`; and when the
signs are not mixed (zeros count as both non-negative and non-positive, as
for a ray hitting exactly on an edge or vertex) the sign test accepts, so the
call returns no intersection only through the determinant test: the result is
`none` exactly when `det = U + V + W = 0`. -/
theorem claim_C2_sign_test (r : RayData) (A B C : Vec3) :
    (((r.edgeU A B C < 0 ∨ r.edgeV A B C < 0 ∨ r.edgeW A B C < 0) ∧
      (r.edgeU A B C > 0 ∨ r.edgeV A B C > 0 ∨ r.edgeW A B C > 0)) →
        r.intersect A B C = none) ∧
    (¬((r.edgeU A B C < 0 ∨ r.edgeV A B C < 0 ∨ r.edgeW A B C < 0) ∧
       (r.edgeU A B C > 0 ∨ r.edgeV A B C > 0 ∨ r.edgeW A B C > 0)) →
        (r.intersect A B C = none ↔ r.detR A B C = 0)) := by
  rw [RayData.intersect_eq]
  constructor
  · intro h
    rw [if_pos h]
  · intro h
    rw [if_neg h]
    by_cases hd : r.detR A B C = 0 <;> simp [hd]

/-- Witness for C2 at a concrete boundary hit: the ray from `(0,0,-5)` along
`(0,0,1)` aimed at the midpoint of the edge from `(-1,0,0)` to `(1,0,0)` has
edge function `W = 0` and the others negative (signs not mixed), and is not
rejected. -/
theorem claim_C2_sign_test_witness :
    (RayData.new ⟨0, 0, -5⟩ ⟨0, 0, 1⟩).intersect ⟨-1, 0, 0⟩ ⟨1, 0, 0⟩ ⟨0, 1, 0⟩ ≠ none := by
  have h := (claim_C2_sign_test (RayData.new ⟨0, 0, -5⟩ ⟨0, 0, 1⟩)
    ⟨-1, 0, 0⟩ ⟨1, 0, 0⟩ ⟨0, 1, 0⟩).2
  intro hnone
  have hns : ¬(((RayData.new ⟨0, 0, -5⟩ ⟨0, 0, 1⟩).edgeU ⟨-1, 0, 0⟩ ⟨1, 0, 0⟩ ⟨0, 1, 0⟩ < 0 ∨
      (RayData.new ⟨0, 0, -5⟩ ⟨0, 0, 1⟩).edgeV ⟨-1, 0, 0⟩ ⟨1, 0, 0⟩ ⟨0, 1, 0⟩ < 0 ∨
      (RayData.new ⟨0, 0, -5⟩ ⟨0, 0, 1⟩).edgeW ⟨-1, 0, 0⟩ ⟨1, 0, 0⟩ ⟨0, 1, 0⟩ < 0) ∧
     ((RayData.new ⟨0, 0, -5⟩ ⟨0, 0, 1⟩).edgeU ⟨-1, 0, 0⟩ ⟨1, 0, 0⟩ ⟨0, 1, 0⟩ > 0 ∨
      (RayData.new ⟨0, 0, -5⟩ ⟨0, 0, 1⟩).edgeV ⟨-1, 0, 0⟩ ⟨1, 0, 0⟩ ⟨0, 1, 0⟩ > 0 ∨
      (RayData.new ⟨0, 0, -5⟩ ⟨0, 0, 1⟩).edgeW ⟨-1, 0, 0⟩ ⟨1, 0, 0⟩ ⟨0, 1, 0⟩ > 0)) := by
    norm_num [RayData.edgeU, RayData.edgeV, RayData.edgeW, RayData.shearX,
      RayData.shearY, RayData.new, max_dim, Vec3.get, Vec3.sub]
  have hdet := (h hns).1 hnone
  norm_num [RayData.detR, RayData.edgeU, RayData.edgeV, RayData.edgeW, RayData.shearX,
    RayData.shearY, RayData.new, max_dim, Vec3.get, Vec3.sub] at hdet

/-- C5: if the determinant `det = U + V + W` is zero, `intersect` returns no
intersection; and every call has exactly two possible outcomes — `none`, or a
full `Intersection` all four of whose fields were produced with `det ≠ 0` by
the single division `rcp_det = 1/det`. -/
theorem claim_C5_det (r : RayData) (A B C : Vec3) :
    (r.detR A B C = 0 → r.intersect A B C = none) ∧
    (r.intersect A B C = none ∨
      ∃ i : Intersection, r.intersect A B C = some i ∧ r.detR A B C ≠ 0 ∧
        i = { t := r.hitT A B C * (1 / r.detR A B C)
              u := r.edgeU A B C * (1 / r.detR A B C)
              v := r.edgeV A B C * (1 / r.detR A B C)
              w := r.edgeW A B C * (1 / r.detR A B C) }) := by
  rw [RayData.intersect_eq]
  constructor
  · intro hd
    rw [if_pos hd]
    split <;> rfl
  · by_cases hs : ((r.edgeU A B C < 0 ∨ r.edgeV A B C < 0 ∨ r.edgeW A B C < 0) ∧
        (r.edgeU A B C > 0 ∨ r.edgeV A B C > 0 ∨ r.edgeW A B C > 0))
    · left
      rw [if_pos hs]
    · by_cases hd : r.detR A B C = 0
      · left
        rw [if_neg hs, if_pos hd]
      · right
        exact ⟨_, by rw [if_neg hs, if_neg hd], hd, rfl⟩

/-- Steps 1–4 of spec §4.3, written from the spec's words: translate the
vertices by the frame's origin, project and shear into 2D ray space, compute
the signed edge functions `U = Cx*By - Cy*Bx`, `V = Ax*Cy - Ay*Cx`,
`W = Bx*Ay - By*Ax`, and apply the zero-triggered recomputation (algebraically
identical formulas re-evaluated through named intermediate products). -/
def spec_uvw (r : RayData) (A B C : Vec3) : ℚ × ℚ × ℚ :=
  let A' := A.sub r.org
  let B' := B.sub r.org
  let C' := C.sub r.org
  let Ax := A'.get r.kx - r.sx * A'.get r.kz
  let Ay := A'.get r.ky - r.sy * A'.get r.kz
  let Bx := B'.get r.kx - r.sx * B'.get r.kz
  let By := B'.get r.ky - r.sy * B'.get r.kz
  let Cx := C'.get r.kx - r.sx * C'.get r.kz
  let Cy := C'.get r.ky - r.sy * C'.get r.kz
  let U := Cx * By - Cy * Bx
  let V := Ax * Cy - Ay * Cx
  let W := Bx * Ay - By * Ax
  if U = 0 ∨ V = 0 ∨ W = 0 then
    (Cx * By - Cy * Bx, Ax * Cy - Ay * Cx, Bx * Ay - By * Ax)
  else
    (U, V, W)

/-- The intersection algorithm as worded in spec §4.3, written from the
spec's eight numbered steps (steps 1–4 are `spec_uvw`; then the mixed-sign
rejection, the `det = U+V+W = 0` rejection, the depth
`T = U*Az + V*Bz + W*Cz` with `Az = sz*A'[kz]` etc., and normalization by
`rcpDet = 1/det`), for comparison with `RayData.intersect`. -/
def spec_intersect (r : RayData) (A B C : Vec3) : Option Intersection :=
  let A' := A.sub r.org
  let B' := B.sub r.org
  let C' := C.sub r.org
  let UVW := spec_uvw r A B C
  let U := UVW.1
  let V := UVW.2.1
  let W := UVW.2.2
  if (U < 0 ∨ V < 0 ∨ W < 0) ∧ (U > 0 ∨ V > 0 ∨ W > 0) then
    none
  else
    let det := U + V + W
    if det = 0 then
      none
    else
      let Az := r.sz * A'.get r.kz
      let Bz := r.sz * B'.get r.kz
      let Cz := r.sz * C'.get r.kz
      let T := U * Az + V * Bz + W * Cz
      let rcpDet := 1 / det
      some { t := T * rcpDet, u := U * rcpDet, v := V * rcpDet, w := W * rcpDet }

/-- The spec-side edge-function computation agrees with the named edge
functions (the zero-triggered recomputation is algebraically a no-op over
exact arithmetic). -/
theorem spec_uvw_eq (r : RayData) (A B C : Vec3) :
    spec_uvw r A B C = (r.edgeU A B C, r.edgeV A B C, r.edgeW A B C) := by
  unfold spec_uvw RayData.edgeU RayData.edgeV RayData.edgeW RayData.shearX RayData.shearY
  dsimp only
  split <;> rfl

/-- C1: for every frame built by `RayData.new` (in particular every frame
built from a non-zero direction) and every vertex triple, `RayData.intersect`
computes exactly the algorithm of spec §4.3: translation by the stored
origin, shear, the edge functions, the zero-triggered recomputation, the
mixed-sign rejection, the `det = 0` rejection, and the normalized `t, u, v,
w` outputs. -/
theorem claim_C1_intersect_spec (org dir A B C : Vec3) :
    (RayData.new org dir).intersect A B C = spec_intersect (RayData.new org dir) A B C := by
  rw [RayData.intersect_eq]
  unfold spec_intersect
  rw [spec_uvw_eq]
  rfl

/-- Witness for C5 at the spec's parallel-plane miss: ray origin `(0,0,-5)`,
direction `(1,0,0)`, triangle in the plane `z = 0`; the determinant is zero
and the call returns no intersection. -/
theorem claim_C5_det_witness :
    (RayData.new ⟨0, 0, -5⟩ ⟨1, 0, 0⟩).intersect ⟨-1, -1, 0⟩ ⟨1, -1, 0⟩ ⟨0, 1, 0⟩ = none := by
  apply (claim_C5_det (RayData.new ⟨0, 0, -5⟩ ⟨1, 0, 0⟩) ⟨-1, -1, 0⟩ ⟨1, -1, 0⟩ ⟨0, 1, 0⟩).1
  norm_num [RayData.detR, RayData.edgeU, RayData.edgeV, RayData.edgeW, RayData.shearX,
    RayData.shearY, RayData.new, max_dim, Vec3.get, Vec3.sub]

/-- Extraction lemma: a successful call determines the sign test, the
non-vanishing of the determinant, and all four output fields. -/
theorem intersect_some_elim (r : RayData) (A B C : Vec3) (i : Intersection)
    (h : r.intersect A B C = some i) :
    r.detR A B C ≠ 0 ∧
      i = { t := r.hitT A B C * (1 / r.detR A B C)
            u := r.edgeU A B C * (1 / r.detR A B C)
            v := r.edgeV A B C * (1 / r.detR A B C)
            w := r.edgeW A B C * (1 / r.detR A B C) } := by
  rw [RayData.intersect_eq] at h
  split at h
  · exact absurd h (by simp)
  · split at h
    · exact absurd h (by simp)
    · exact ⟨by assumption, (Option.some.inj h).symm⟩

/-- Shared helper: the barycentric outputs of any successful call sum to
one. -/
theorem intersect_bary_sum (r : RayData) (A B C : Vec3) (i : Intersection)
    (h : r.intersect A B C = some i) : i.u + i.v + i.w = 1 := by
  obtain ⟨hd, rfl⟩ := intersect_some_elim r A B C i h
  have hd' : r.edgeU A B C + r.edgeV A B C + r.edgeW A B C ≠ 0 := by
    rw [← RayData.detR]; exact hd
  dsimp only
  rw [RayData.detR]
  field_simp

/-- C7: whenever `intersect` returns an intersection, the returned
barycentric coordinates satisfy `u + v + w = 1` exactly (they are `U`, `V`,
`W` each divided by their sum `det`). -/
theorem claim_C7_bary_sum (r : RayData) (A B C : Vec3) (i : Intersection)
    (h : r.intersect A B C = some i) : i.u + i.v + i.w = 1 :=
  intersect_bary_sum r A B C i h

/-- Witness for C7 at the spec's canonical hit: the returned barycentric
coordinates are `(1/4, 1/4, 1/2)` and sum to one. -/
theorem claim_C7_bary_sum_witness :
    (Intersection.mk 5 (1/4) (1/4) (1/2)).u + (Intersection.mk 5 (1/4) (1/4) (1/2)).v +
      (Intersection.mk 5 (1/4) (1/4) (1/2)).w = 1 :=
  claim_C7_bary_sum (RayData.new ⟨0, 0, -5⟩ ⟨0, 0, 1⟩) ⟨-1, -1, 0⟩ ⟨1, -1, 0⟩ ⟨0, 1, 0⟩
    (Intersection.mk 5 (1/4) (1/4) (1/2))
    (by norm_num [RayData.intersect, RayData.uvw, RayData.new, max_dim, Vec3.get, Vec3.sub])

/-- Translating a vertex and the origin by the same displacement does not
change their difference. -/
theorem Vec3.add_sub_add (a o d : Vec3) : (a.add d).sub (o.add d) = a.sub o := by
  cases a
  cases o
  cases d
  simp only [Vec3.add, Vec3.sub, Vec3.mk.injEq]
  refine ⟨by ring, by ring, by ring⟩

/-- `intersect` depends only on the translated vertices and the frame's
permutation and shear fields. -/
theorem intersect_congr (r r' : RayData) (A B C A' B' C' : Vec3)
    (h1 : r.kx = r'.kx) (h2 : r.ky = r'.ky) (h3 : r.kz = r'.kz)
    (h4 : r.sx = r'.sx) (h5 : r.sy = r'.sy) (h6 : r.sz = r'.sz)
    (ha : A.sub r.org = A'.sub r'.org) (hb : B.sub r.org = B'.sub r'.org)
    (hc : C.sub r.org = C'.sub r'.org) :
    r.intersect A B C = r'.intersect A' B' C' := by
  unfold RayData.intersect RayData.uvw
  rw [ha, hb, hc, h1, h2, h3, h4, h5, h6]

/-- C10 (implicit): translation equivariance — shifting the ray origin and
the three vertices by the same displacement `d` gives exactly the same
result (same hit/miss decision and same `t`, `u`, `v`, `w`), because the
frame's `kx, ky, kz, sx, sy, sz` depend only on the direction and
`intersect` uses the vertices only after subtracting the stored origin. -/
theorem claim_C10_translation (d org dir A B C : Vec3) :
    (RayData.new (org.add d) dir).intersect (A.add d) (B.add d) (C.add d) =
      (RayData.new org dir).intersect A B C :=
  intersect_congr _ _ _ _ _ _ _ _ rfl rfl rfl rfl rfl rfl
    (Vec3.add_sub_add A org d) (Vec3.add_sub_add B org d) (Vec3.add_sub_add C org d)

/-- Componentwise access to `Vec3.sub`. -/
theorem Vec3.get_sub (a b : Vec3) (i : ℕ) : (a.sub b).get i = a.get i - b.get i := by
  unfold Vec3.get Vec3.sub
  dsimp only
  split_ifs <;> rfl

/-- Componentwise access to `Vec3.add`. -/
theorem Vec3.get_add (a b : Vec3) (i : ℕ) : (a.add b).get i = a.get i + b.get i := by
  unfold Vec3.get Vec3.add
  dsimp only
  split_ifs <;> rfl

/-- Componentwise access to `Vec3.smul`. -/
theorem Vec3.get_smul (s : ℚ) (a : Vec3) (i : ℕ) : (Vec3.smul s a).get i = s * a.get i := by
  unfold Vec3.get Vec3.smul
  dsimp only
  split_ifs <;> rfl

/-- Two vectors agreeing at indices `0`, `1`, `2` are equal. -/
theorem Vec3.eq_of_get (a b : Vec3) (h0 : a.get 0 = b.get 0) (h1 : a.get 1 = b.get 1)
    (h2 : a.get 2 = b.get 2) : a = b := by
  cases a
  cases b
  simp only [Vec3.get] at h0 h1 h2
  norm_num at h0 h1 h2
  simp_all

/-- The edge functions annihilate the sheared `x` coordinates: a ring
identity of the edge-function formulas. -/
theorem edge_dot_shearX (r : RayData) (A B C : Vec3) :
    r.edgeU A B C * r.shearX A + r.edgeV A B C * r.shearX B + r.edgeW A B C * r.shearX C = 0 := by
  unfold RayData.edgeU RayData.edgeV RayData.edgeW
  ring

/-- The edge functions annihilate the sheared `y` coordinates. -/
theorem edge_dot_shearY (r : RayData) (A B C : Vec3) :
    r.edgeU A B C * r.shearY A + r.edgeV A B C * r.shearY B + r.edgeW A B C * r.shearY C = 0 := by
  unfold RayData.edgeU RayData.edgeV RayData.edgeW
  ring

/-- In a frame built from a direction whose dominant component is non-zero,
the `kx` component of a translated vertex decomposes into its sheared `x`
coordinate plus `dir[kx]` times its scaled depth. -/
theorem get_kx_decomp (org dir P : Vec3) (hz : dir.get (max_dim dir) ≠ 0) :
    (P.sub org).get ((RayData.new org dir).kx) =
      (RayData.new org dir).shearX P +
        dir.get ((RayData.new org dir).kx) * (RayData.new org dir).depthZ P := by
  unfold RayData.shearX RayData.depthZ RayData.new
  dsimp only
  field_simp

/-- The `ky` analogue of `get_kx_decomp`. -/
theorem get_ky_decomp (org dir P : Vec3) (hz : dir.get (max_dim dir) ≠ 0) :
    (P.sub org).get ((RayData.new org dir).ky) =
      (RayData.new org dir).shearY P +
        dir.get ((RayData.new org dir).ky) * (RayData.new org dir).depthZ P := by
  unfold RayData.shearY RayData.depthZ RayData.new
  dsimp only
  field_simp

/-- The `kz` component of a translated vertex is `dir[kz]` times its scaled
depth. -/
theorem get_kz_decomp (org dir P : Vec3) (hz : dir.get (max_dim dir) ≠ 0) :
    (P.sub org).get ((RayData.new org dir).kz) =
      dir.get ((RayData.new org dir).kz) * (RayData.new org dir).depthZ P := by
  unfold RayData.depthZ RayData.new
  dsimp only
  field_simp

/-- Every index below 3 is one of the frame's three axis indices. -/
theorem index_mem_frame (org dir : Vec3) (j : ℕ) (hj : j < 3) :
    j = (RayData.new org dir).kx ∨ j = (RayData.new org dir).ky ∨
      j = (RayData.new org dir).kz := by
  rcases max_dim_cases dir with hm | hm | hm <;>
    simp only [RayData.new, hm] <;> omega

/-- C6: for every frame built from a non-zero direction, whenever `intersect`
returns an intersection, the returned values satisfy (in exact arithmetic)
`origin + t*direction = u*A + v*B + w*C`: the parametric distance and the
barycentric coordinates jointly name the same geometric point on the
triangle. -/
theorem claim_C6_geometric (org dir A B C : Vec3) (hdir : dir ≠ ⟨0, 0, 0⟩)
    (i : Intersection) (h : (RayData.new org dir).intersect A B C = some i) :
    org.add (Vec3.smul i.t dir) =
      ((Vec3.smul i.u A).add (Vec3.smul i.v B)).add (Vec3.smul i.w C) := by
  have hz : dir.get (max_dim dir) ≠ 0 := get_max_dim_ne_zero dir hdir
  set r := RayData.new org dir with hr
  have hsum := intersect_bary_sum r A B C i h
  obtain ⟨hd, hi⟩ := intersect_some_elim r A B C i h
  have hdd : r.edgeU A B C + r.edgeV A B C + r.edgeW A B C ≠ 0 := by
    rw [← RayData.detR]
    exact hd
  have key : ∀ j : ℕ, (j = r.kx ∨ j = r.ky ∨ j = r.kz) →
      i.t * dir.get j =
        i.u * (A.sub org).get j + i.v * (B.sub org).get j + i.w * (C.sub org).get j := by
    intro j hj
    rw [hi]
    dsimp only
    rcases hj with rfl | rfl | rfl
    · rw [hr, get_kx_decomp org dir A hz, get_kx_decomp org dir B hz,
        get_kx_decomp org dir C hz, ← hr]
      rw [RayData.hitT]
      field_simp
      linear_combination -edge_dot_shearX r A B C
    · rw [hr, get_ky_decomp org dir A hz, get_ky_decomp org dir B hz,
        get_ky_decomp org dir C hz, ← hr]
      rw [RayData.hitT]
      field_simp
      linear_combination -edge_dot_shearY r A B C
    · rw [hr, get_kz_decomp org dir A hz, get_kz_decomp org dir B hz,
        get_kz_decomp org dir C hz, ← hr]
      rw [RayData.hitT]
      field_simp
      ring
  refine Vec3.eq_of_get _ _ ?_ ?_ ?_ <;> simp only [Vec3.get_add, Vec3.get_smul]
  · have kj := key 0 (index_mem_frame org dir 0 (by norm_num))
    rw [Vec3.get_sub, Vec3.get_sub, Vec3.get_sub] at kj
    linear_combination kj - (org.get 0) * hsum
  · have kj := key 1 (index_mem_frame org dir 1 (by norm_num))
    rw [Vec3.get_sub, Vec3.get_sub, Vec3.get_sub] at kj
    linear_combination kj - (org.get 1) * hsum
  · have kj := key 2 (index_mem_frame org dir 2 (by norm_num))
    rw [Vec3.get_sub, Vec3.get_sub, Vec3.get_sub] at kj
    linear_combination kj - (org.get 2) * hsum

/-- Witness for C6 at the spec's canonical hit: `(0,0,-5) + 5·(0,0,1)` equals
`(1/4)·A + (1/4)·B + (1/2)·C` for the triangle `A=(-1,-1,0)`, `B=(1,-1,0)`,
`C=(0,1,0)`. -/
theorem claim_C6_geometric_witness :
    (Vec3.mk 0 0 (-5)).add (Vec3.smul (Intersection.mk 5 (1/4) (1/4) (1/2)).t ⟨0, 0, 1⟩) =
      ((Vec3.smul (Intersection.mk 5 (1/4) (1/4) (1/2)).u ⟨-1, -1, 0⟩).add
        (Vec3.smul (Intersection.mk 5 (1/4) (1/4) (1/2)).v ⟨1, -1, 0⟩)).add
        (Vec3.smul (Intersection.mk 5 (1/4) (1/4) (1/2)).w ⟨0, 1, 0⟩) :=
  claim_C6_geometric ⟨0, 0, -5⟩ ⟨0, 0, 1⟩ ⟨-1, -1, 0⟩ ⟨1, -1, 0⟩ ⟨0, 1, 0⟩
    (by simp) (Intersection.mk 5 (1/4) (1/4) (1/2))
    (by norm_num [RayData.intersect, RayData.uvw, RayData.new, max_dim, Vec3.get, Vec3.sub])

/-- If the ray passes through the point `(1-s)·P + s·Q`, the sheared 2D
coordinates of `P` and `Q` satisfy `(1-s)·Px + s·Qx = 0` and
`(1-s)·Py + s·Qy = 0`: the ray-space origin lies on the projected segment's
supporting line at parameter `s`. -/
theorem shear_aim (org dir P Q : Vec3) (hdir : dir ≠ ⟨0, 0, 0⟩) (s tt : ℚ)
    (haim : org.add (Vec3.smul tt dir) = (Vec3.smul (1 - s) P).add (Vec3.smul s Q)) :
    (1 - s) * (RayData.new org dir).shearX P + s * (RayData.new org dir).shearX Q = 0 ∧
    (1 - s) * (RayData.new org dir).shearY P + s * (RayData.new org dir).shearY Q = 0 := by
  have hz : dir.get (max_dim dir) ≠ 0 := get_max_dim_ne_zero dir hdir
  have hcomp : ∀ j : ℕ, org.get j + tt * dir.get j = (1 - s) * P.get j + s * Q.get j := by
    intro j
    have hj := congrArg (fun v => Vec3.get v j) haim
    simpa [Vec3.get_add, Vec3.get_smul] using hj
  have horg : (RayData.new org dir).org = org := rfl
  have hsx : (RayData.new org dir).sx * dir.get ((RayData.new org dir).kz) =
      dir.get ((RayData.new org dir).kx) := div_mul_cancel₀ _ hz
  have hsy : (RayData.new org dir).sy * dir.get ((RayData.new org dir).kz) =
      dir.get ((RayData.new org dir).ky) := div_mul_cancel₀ _ hz
  constructor
  · unfold RayData.shearX
    rw [Vec3.get_sub, Vec3.get_sub, Vec3.get_sub, Vec3.get_sub, horg]
    have e1 := hcomp ((RayData.new org dir).kx)
    have e2 := hcomp ((RayData.new org dir).kz)
    linear_combination (-1) * e1 + (RayData.new org dir).sx * e2 - tt * hsx
  · unfold RayData.shearY
    rw [Vec3.get_sub, Vec3.get_sub, Vec3.get_sub, Vec3.get_sub, horg]
    have e1 := hcomp ((RayData.new org dir).ky)
    have e2 := hcomp ((RayData.new org dir).kz)
    linear_combination (-1) * e1 + (RayData.new org dir).sy * e2 - tt * hsy

/-- A ray through the point `(1-s)·P + s·Q` of the edge `P`–`Q` gives the
triangle `(P, Q, R)` a vanishing third edge function `W`: any hit is a
boundary hit on that edge. -/
theorem aim_edgeW_zero (org dir P Q R : Vec3) (hdir : dir ≠ ⟨0, 0, 0⟩) (s tt : ℚ)
    (haim : org.add (Vec3.smul tt dir) = (Vec3.smul (1 - s) P).add (Vec3.smul s Q)) :
    (RayData.new org dir).edgeW P Q R = 0 := by
  obtain ⟨hx, hy⟩ := shear_aim org dir P Q hdir s tt haim
  unfold RayData.edgeW
  linear_combination ((RayData.new org dir).shearY P - (RayData.new org dir).shearY Q) * hx +
    ((RayData.new org dir).shearX Q - (RayData.new org dir).shearX P) * hy

/-- A ray through the point `(1-s)·P + s·Q` makes the first two edge
functions of the triangle `(P, Q, R)` proportional: `(1-s)·V = s·U`. -/
theorem aim_edgeV_ratio (org dir P Q R : Vec3) (hdir : dir ≠ ⟨0, 0, 0⟩) (s tt : ℚ)
    (haim : org.add (Vec3.smul tt dir) = (Vec3.smul (1 - s) P).add (Vec3.smul s Q)) :
    (1 - s) * (RayData.new org dir).edgeV P Q R = s * (RayData.new org dir).edgeU P Q R := by
  obtain ⟨hx, hy⟩ := shear_aim org dir P Q hdir s tt haim
  unfold RayData.edgeU RayData.edgeV
  linear_combination (RayData.new org dir).shearY R * hx - (RayData.new org dir).shearX R * hy

/-- Edge functions with `W = 0` and `(1-s)·V = s·U` for some `s ∈ [0,1]`
never have mixed signs. -/
theorem not_mixed_of_edge (U V W s : ℚ) (hs0 : 0 ≤ s) (hs1 : s ≤ 1) (hW : W = 0)
    (hUV : (1 - s) * V = s * U) :
    ¬((U < 0 ∨ V < 0 ∨ W < 0) ∧ (U > 0 ∨ V > 0 ∨ W > 0)) := by
  subst hW
  rintro ⟨h1 | h1 | h1, h2 | h2 | h2⟩ <;> try linarith
  · have hge : 0 ≤ (1 - s) * V := mul_nonneg (by linarith) h2.le
    have hle : s * U ≤ 0 := mul_nonpos_of_nonneg_of_nonpos hs0 h1.le
    have h0 : (1 - s) * V = 0 := le_antisymm (by linarith) hge
    rcases mul_eq_zero.mp h0 with h | h
    · have hs' : s = 1 := by linarith
      subst hs'
      norm_num at hUV
      linarith
    · linarith
  · have hge : 0 ≤ s * U := mul_nonneg hs0 h2.le
    have hle : (1 - s) * V ≤ 0 := mul_nonpos_of_nonneg_of_nonpos (by linarith) h1.le
    have h0 : s * U = 0 := le_antisymm (by linarith) hge
    rcases mul_eq_zero.mp h0 with h | h
    · subst h
      norm_num at hUV
      linarith
    · linarith

/-- A ray through a point of the edge `P`-`Q` at parameter `s ∈ [0,1]` hits
the triangle `(P, Q, R)` whenever that triangle's ray-space determinant is
non-zero. -/
theorem edge_hit (org dir P Q R : Vec3) (hdir : dir ≠ ⟨0, 0, 0⟩) (s tt : ℚ)
    (hs0 : 0 ≤ s) (hs1 : s ≤ 1)
    (haim : org.add (Vec3.smul tt dir) = (Vec3.smul (1 - s) P).add (Vec3.smul s Q))
    (hdet : (RayData.new org dir).detR P Q R ≠ 0) :
    ((RayData.new org dir).intersect P Q R).isSome := by
  have hW := aim_edgeW_zero org dir P Q R hdir s tt haim
  have hUV := aim_edgeV_ratio org dir P Q R hdir s tt haim
  have hnm := not_mixed_of_edge ((RayData.new org dir).edgeU P Q R)
    ((RayData.new org dir).edgeV P Q R) ((RayData.new org dir).edgeW P Q R) s hs0 hs1 hW hUV
  rw [RayData.intersect_eq, if_neg hnm, if_neg hdet]
  rfl

/-- Counterexample to C9 as stated: the ray with origin `(0,0,0)` and
direction `(1,0,0)` passes through `(0,0,0)`, the midpoint of the edge from
`P = (0,-1,0)` to `Q = (0,1,0)` shared by the triangles `(P,Q,(-1,0,0))` and
`(P,Q,(1,0,0))` — yet the ray lies in the common plane `z = 0` of both
triangles, both ray-space determinants vanish, and both calls return no
intersection: zero hits. -/
theorem claim_C9_counterexample :
    ((Vec3.mk 0 0 0).add (Vec3.smul 0 ⟨1, 0, 0⟩) =
      (Vec3.smul (1 - 1/2) ⟨0, -1, 0⟩).add (Vec3.smul (1/2) ⟨0, 1, 0⟩)) ∧
    (RayData.new ⟨0, 0, 0⟩ ⟨1, 0, 0⟩).intersect ⟨0, -1, 0⟩ ⟨0, 1, 0⟩ ⟨-1, 0, 0⟩ = none ∧
    (RayData.new ⟨0, 0, 0⟩ ⟨1, 0, 0⟩).intersect ⟨0, -1, 0⟩ ⟨0, 1, 0⟩ ⟨1, 0, 0⟩ = none := by
  refine ⟨?_, ?_, ?_⟩
  · norm_num [Vec3.add, Vec3.smul]
  all_goals
    norm_num [RayData.intersect, RayData.uvw, RayData.new, max_dim, Vec3.get, Vec3.sub]

/-- C9 (amended): for two triangles sharing the edge `P`–`Q` and a frame
built from a non-zero direction whose ray passes through a point
`(1-s)·P + s·Q` of that edge (`s ∈ [0,1]`), *provided the ray is not
parallel to the planes of both triangles* (at least one ray-space
determinant is non-zero), `intersect` reports a hit against at least one of
the two triangles; and any hit on either triangle is a consistent boundary
hit permitted by the zero-inclusive sign rule: the edge function `W`
belonging to the shared edge vanishes for both triangles. -/
theorem claim_C9_watertight (org dir P Q R1 R2 : Vec3) (hdir : dir ≠ ⟨0, 0, 0⟩)
    (s tt : ℚ) (hs0 : 0 ≤ s) (hs1 : s ≤ 1)
    (haim : org.add (Vec3.smul tt dir) = (Vec3.smul (1 - s) P).add (Vec3.smul s Q))
    (hdet : (RayData.new org dir).detR P Q R1 ≠ 0 ∨ (RayData.new org dir).detR P Q R2 ≠ 0) :
    (((RayData.new org dir).intersect P Q R1).isSome ∨
      ((RayData.new org dir).intersect P Q R2).isSome) ∧
    (RayData.new org dir).edgeW P Q R1 = 0 ∧ (RayData.new org dir).edgeW P Q R2 = 0 := by
  refine ⟨?_, aim_edgeW_zero org dir P Q R1 hdir s tt haim,
    aim_edgeW_zero org dir P Q R2 hdir s tt haim⟩
  rcases hdet with hdet | hdet
  · exact Or.inl (edge_hit org dir P Q R1 hdir s tt hs0 hs1 haim hdet)
  · exact Or.inr (edge_hit org dir P Q R2 hdir s tt hs0 hs1 haim hdet)

/-- Witness for the amended C9: the ray from `(0,0,-5)` along `(0,0,1)`
through the midpoint of the edge from `(-1,0,0)` to `(1,0,0)` shared by the
triangles with apexes `(0,1,0)` and `(0,-1,0)`; a hit is reported and both
shared-edge functions vanish. -/
theorem claim_C9_watertight_witness :
    (((RayData.new ⟨0, 0, -5⟩ ⟨0, 0, 1⟩).intersect ⟨-1, 0, 0⟩ ⟨1, 0, 0⟩ ⟨0, 1, 0⟩).isSome ∨
      ((RayData.new ⟨0, 0, -5⟩ ⟨0, 0, 1⟩).intersect ⟨-1, 0, 0⟩ ⟨1, 0, 0⟩ ⟨0, -1, 0⟩).isSome) ∧
    (RayData.new ⟨0, 0, -5⟩ ⟨0, 0, 1⟩).edgeW ⟨-1, 0, 0⟩ ⟨1, 0, 0⟩ ⟨0, 1, 0⟩ = 0 ∧
    (RayData.new ⟨0, 0, -5⟩ ⟨0, 0, 1⟩).edgeW ⟨-1, 0, 0⟩ ⟨1, 0, 0⟩ ⟨0, -1, 0⟩ = 0 :=
  claim_C9_watertight ⟨0, 0, -5⟩ ⟨0, 0, 1⟩ ⟨-1, 0, 0⟩ ⟨1, 0, 0⟩ ⟨0, 1, 0⟩ ⟨0, -1, 0⟩
    (by simp) (1/2) 5 (by norm_num) (by norm_num)
    (by norm_num [Vec3.add, Vec3.smul])
    (Or.inl (by norm_num [RayData.detR, RayData.edgeU, RayData.edgeV, RayData.edgeW,
      RayData.shearX, RayData.shearY, RayData.new, max_dim, Vec3.get, Vec3.sub]))

end Watertri
